import Mathlib

/-!
Verification development for the dspy-test repository: five scripts that
drive prompt/program optimization (bootstrapped few-shot selection and
MIPROv2 joint instruction+demonstration search) over small datasets.

The metrics (validate_math, validate_blog), the dataset constants, the
hiragana pre-check and the empty-dataset startup guard are embedded
directly from the sources under src/.  The optimizer internals
(BootstrapFewShot, MIPROv2's trial loop, the LM history log) live in the
external dspy library, so those parts are modelled from the spec, as
noted in the doc comment of each such definition.
-/

/-! ## String membership (Python's `in` operator on strings) -/

/-- Boolean test that the list `a` is a leading segment of `b`.
Auxiliary to `strIn`; models the anchored comparison that Python's
substring scan performs at each start position. -/
def strLeads (a b : List Char) : Bool :=
  match a, b with
  | [], _ => true
  | _ :: _, [] => false
  | x :: xs, y :: ys => x == y && strLeads xs ys

/-- Boolean test that `a` occurs as a contiguous segment of `b`: the
semantics of Python's `a in b` for strings, used by `validate_math`
(src/main.py line 32: `example.answer in pred.answer`). -/
def strIn (a b : List Char) : Bool :=
  match b with
  | [] => strLeads a []
  | y :: ys => strLeads a (y :: ys) || strIn a ys

/-! ## Math data model (src/main.py, src/bootstrap_few_shot.py,
src/mipro_v2_prompt.py, src/mipro_v2_prompt_fewshot.py) -/

/-- A math training example: `dspy.Example(question=..., answer=...)`
with `question` marked as the input field. -/
structure MathExample where
  question : String
  answer : String
deriving DecidableEq

/-- A prediction of the ChainOfThought math solver: the parsed
`reasoning` and `answer` output fields. -/
structure MathPred where
  reasoning : String
  answer : String
deriving DecidableEq

/-- The five-element dataset `math_data` shared verbatim by the four
math scripts. -/
def math_data : List MathExample :=
  [⟨"What is 10 + 20?", "30"⟩,
   ⟨"What is 5 * 5?", "25"⟩,
   ⟨"What is 100 / 2?", "50"⟩,
   ⟨"What is 12 - 4?", "8"⟩,
   ⟨"What is 3 + 2 * 4?", "11"⟩]

/-- `trainset = math_data[:3]` from the math scripts. -/
def trainset : List MathExample := math_data.take 3

/-- The math metric (src/main.py lines 29-32 and its copies): true iff
the gold answer string occurs inside the predicted answer string,
Python's `example.answer in pred.answer`. -/
def validate_math (ex : MathExample) (pred : MathPred) : Bool :=
  strIn ex.answer.data pred.answer.data

/-! ## History model (spec §4.1 / §2, Trace/History) -/

/-- One History record: the rendered prompt and the raw model response.
Modelled from the spec: the LM history log lives inside the external
dspy LM client (`lm.history`, read by all scripts); the spec describes
each entry as holding the rendered prompt and raw response. -/
structure HistEntry where
  prompt : String
  response : String
deriving DecidableEq

/-- Modelled from the spec: one model invocation (§4.1).  The LM
capability is the external collaborator `invoke(rendered_prompt)`; it is
modelled as a function from prompt to response text.  The invocation
returns the response and appends exactly one History entry. -/
def lmInvoke (lmFun : String → String) (hist : List HistEntry)
    (prompt : String) : String × List HistEntry :=
  (lmFun prompt, hist ++ [⟨prompt, lmFun prompt⟩])

/-- Modelled from the spec: a program invocation as the sequence of
model calls it performs (§4.2 composes Predictor.run calls, each of
which renders one prompt and invokes the LM once).  Folds `lmInvoke`
over the rendered prompts, threading the history. -/
def runCalls (lmFun : String → String) (prompts : List String)
    (hist : List HistEntry) : List HistEntry :=
  prompts.foldl (fun h p => (lmInvoke lmFun h p).2) hist

/-! ## Blog data model (src/mipro_v2_blog_generation.py) -/

/-- A blog example: `dspy.Example(notes=..., blog=...)` with `notes`
marked as the input field (load_dataset, lines 24-26). -/
structure BlogExample where
  notes : String
  blog : String
deriving DecidableEq

/-- A prediction of the BlogWriter module: parsed `reasoning` and
`blog` output fields. -/
structure BlogPred where
  reasoning : String
  blog : String
deriving DecidableEq

/-- The value returned by `validate_blog`: Python lets it return either
the boolean `False` (hiragana pre-check failed) or an integer score. -/
inductive BlogScore where
  | bool (b : Bool)
  | num (n : Int)
deriving DecidableEq

/-- The hiragana test of src/mipro_v2_blog_generation.py line 85:
`re.search(r'[ぁ-ん]', pred.blog)` — some character of the string lies
in the codepoint range U+3041 (ぁ) to U+3093 (ん). -/
def hasHiragana (s : String) : Bool :=
  s.data.any (fun c => 0x3041 ≤ c.toNat && c.toNat ≤ 0x3093)

/-- The blog metric (src/mipro_v2_blog_generation.py lines 81-99).
If the prediction's blog has no hiragana character it returns `False`
at once, without consulting the judge.  Otherwise it runs the nested
LM-as-judge ChainOfThought and coerces its score field to an integer;
that whole step is modelled by the `judge` parameter, which returns
either an integer score or an exception message, together with the
History entries its own model invocation appended.  On an exception the
metric returns the score 0 (the `except` branch, lines 97-99). -/
def validate_blog (judge : String → String → Except String Int × List HistEntry)
    (ex : BlogExample) (pred : BlogPred) : BlogScore × List HistEntry :=
  if hasHiragana pred.blog = false then
    (BlogScore.bool false, [])
  else
    match judge ex.notes pred.blog with
    | (Except.ok score, h) => (BlogScore.num score, h)
    | (Except.error _, h) => (BlogScore.num 0, h)

/-! ## Bootstrapped demonstration selection (spec §4.4) -/

/-- A demonstration for the math ChainOfThought predictor: the captured
input together with the captured reasoning and answer outputs. -/
structure Demo where
  question : String
  reasoning : String
  answer : String
deriving DecidableEq

/-- Modelled from the spec: the BootstrapFewShot compile step (§4.4);
the optimizer itself lives in the external dspy library and src/ only
calls it (src/bootstrap_few_shot.py lines 58-61).  `run` is the student
program run in capture mode (§4.4 step 1), giving the predictor's
concrete (input, output) pair for each training example.  An example
whose final prediction the metric accepts contributes a demonstration
built from the captured pair (steps 2-3); collection stops after
`maxDemos` demonstrations or when the training set is exhausted
(step 4). -/
def bootstrapDemos (run : MathExample → MathPred)
    (metric : MathExample → MathPred → Bool) :
    Nat → List MathExample → List Demo
  | _, [] => []
  | 0, _ :: _ => []
  | n + 1, e :: rest =>
    if metric e (run e) then
      ⟨e.question, (run e).reasoning, (run e).answer⟩ ::
        bootstrapDemos run metric n rest
    else
      bootstrapDemos run metric (n + 1) rest

/-- A run function exhibiting that captured answers need only contain
the gold label: the model may answer with surrounding text. -/
def run_bad : MathExample → MathPred :=
  fun e => ⟨"", "answer: " ++ e.answer⟩

/-! ## Joint instruction + demonstration search (spec §4.5) -/

/-- A labeled demonstration taken directly from a training example
(spec §4.5 step 1, the `max_labeled_demos` part); it carries no captured
reasoning. -/
def labelDemo (e : MathExample) : Demo :=
  ⟨e.question, "", e.answer⟩

/-- Modelled from the spec: one candidate demonstration set (§4.5
step 1) — bootstrapped selection bounded by `maxBoot` combined with a
direct sample of labeled training examples bounded by `maxLabeled`. -/
def demoCandidate (run : MathExample → MathPred)
    (metric : MathExample → MathPred → Bool)
    (maxBoot maxLabeled : Nat) (train : List MathExample) : List Demo :=
  bootstrapDemos run metric maxBoot train ++ (train.take maxLabeled).map labelDemo

/-- Modelled from the spec: the pool of candidate demonstration sets,
one per bootstrap run (different seeds give different capture runs). -/
def demoPool (runs : List (MathExample → MathPred))
    (metric : MathExample → MathPred → Bool)
    (maxBoot maxLabeled : Nat) (train : List MathExample) :
    List (List Demo) :=
  runs.map (fun run => demoCandidate run metric maxBoot maxLabeled train)

/-- A trial of the joint search: the chosen instruction, the chosen
demonstration set, and the score obtained by evaluating that
configuration (spec, Trial). -/
structure Trial where
  instruction : String
  demos : List Demo
  score : ℚ
deriving DecidableEq

/-- Modelled from the spec: the proposal step of §4.5 step 2 — each
trial picks one instruction candidate and one demonstration-set
candidate per predictor; `pick` is the (seeded, deterministic) proposal
rule choosing indices into the two pools. -/
def proposeConfig (instrs : List String) (pool : List (List Demo))
    (pick : Nat → Nat × Nat) (i : Nat) : String × List Demo :=
  (instrs.getD (pick i).1 "", pool.getD (pick i).2 [])

/-- Modelled from the spec: the trial loop of §4.5 steps 2-4 — exactly
`numTrials` iterations, each assembling a configuration via `propose`
and evaluating it once with `evalC` (the averaged metric score over the
evaluation batch). -/
def trialLoop (numTrials : Nat) (propose : Nat → String × List Demo)
    (evalC : String × List Demo → ℚ) : List Trial :=
  (List.range numTrials).map
    (fun i => ⟨(propose i).1, (propose i).2, evalC (propose i)⟩)

/-- Modelled from the spec: best-trial tracking (§4.5 step 4) — the
running best starts at the zero-shot baseline trial `t0` and is replaced
only when a later trial scores strictly higher. -/
def bestTrial (t0 : Trial) (ts : List Trial) : Trial :=
  ts.foldl (fun best t => if best.score < t.score then t else best) t0

/-- Modelled from the spec: the result of a MIPROv2 compile (§4.5
step 5) — the best trial among the zero-shot baseline and the
`numTrials` evaluated trials. -/
def miproResult (t0 : Trial) (numTrials : Nat)
    (propose : Nat → String × List Demo)
    (evalC : String × List Demo → ℚ) : Trial :=
  bestTrial t0 (trialLoop numTrials propose evalC)

/-! ## Script startup (src/mipro_v2_blog_generation.py) -/

/-- Observable effects of the blog script's startup, in order. -/
inductive Effect where
  | printError
  | exitProc
  | configureLM
  | lmCall
  | compileRun
deriving DecidableEq

/-- The blog script's startup control flow, embedded from
src/mipro_v2_blog_generation.py: the module-level dataset guard
(lines 31-34: print a diagnostic and `exit()` when `load_dataset`
returned nothing) runs before `main`; `main` checks the API key
(lines 102-105) and only then configures the LM and compiles.  The body
of `main` past the guards is abstracted as its effect list. -/
def blogScript (ds : List BlogExample) (apiKeySet : Bool) : List Effect :=
  if ds.isEmpty then
    [Effect.printError, Effect.exitProc]
  else if apiKeySet = false then
    [Effect.printError, Effect.exitProc]
  else
    [Effect.configureLM, Effect.lmCall, Effect.compileRun, Effect.lmCall]

/-! ## Substring lemmas -/

theorem strLeads_iff (a b : List Char) :
    strLeads a b = true ↔ ∃ t, b = a ++ t := by
  induction a generalizing b with
  | nil =>
    simp [strLeads]
  | cons x xs ih =>
    cases b with
    | nil =>
      simp [strLeads]
    | cons y ys =>
      simp only [strLeads, Bool.and_eq_true, beq_iff_eq, ih]
      constructor
      · rintro ⟨rfl, t, rfl⟩
        exact ⟨t, rfl⟩
      · rintro ⟨t, ht⟩
        rw [List.cons_append] at ht
        injection ht with h1 h2
        exact ⟨h1.symm, t, h2⟩

theorem strIn_iff (a b : List Char) :
    strIn a b = true ↔ ∃ p t, b = p ++ a ++ t := by
  induction b with
  | nil =>
    simp only [strIn, strLeads_iff]
    constructor
    · rintro ⟨t, ht⟩
      exact ⟨[], t, by simpa using ht⟩
    · rintro ⟨p, t, ht⟩
      exact ⟨t, by
        rcases List.append_eq_nil.mp (ht.symm) with ⟨h1, h2⟩
        rcases List.append_eq_nil.mp h1 with ⟨h3, h4⟩
        simp [h3, h4, h2]⟩
  | cons y ys ih =>
    simp only [strIn, Bool.or_eq_true, strLeads_iff, ih]
    constructor
    · rintro (⟨t, ht⟩ | ⟨p, t, ht⟩)
      · exact ⟨[], t, by simpa using ht⟩
      · exact ⟨y :: p, t, by simp [ht]⟩
    · rintro ⟨p, t, ht⟩
      cases p with
      | nil =>
        exact Or.inl ⟨t, by simpa using ht⟩
      | cons z zs =>
        right
        rw [List.cons_append, List.cons_append] at ht
        injection ht with h1 h2
        exact ⟨zs, t, h2⟩

/-! ## Claim C9 -/

/-- Claim C9: for every example and every prediction, the math metric
validate_math(example, pred) returns true if and only if the string
example.answer occurs as a contiguous substring of the string
pred.answer. -/
theorem validate_math_iff_substring (ex : MathExample) (pred : MathPred) :
    validate_math ex pred = true ↔
      ∃ pre post, pred.answer.data = pre ++ ex.answer.data ++ post := by
  unfold validate_math
  exact strIn_iff ex.answer.data pred.answer.data

/-- Concrete instance of the C9 theorem: the label "30" occurs inside
the predicted answer "x30y", and the metric accepts. -/
theorem validate_math_iff_substring_witness :
    validate_math ⟨"q", "30"⟩ ⟨"r", "x30y"⟩ = true :=
  (validate_math_iff_substring ⟨"q", "30"⟩ ⟨"r", "x30y"⟩).mpr
    ⟨['x'], ['y'], by decide⟩

/-! ## Claim C10 -/

/-- Claim C10: for every prediction whose blog field contains no
hiragana character, validate_blog returns False immediately, appends no
History entry, and never consults the judge (the result is independent
of the judge function). -/
theorem validate_blog_no_hiragana_short_circuit
    (judge : String → String → Except String Int × List HistEntry)
    (ex : BlogExample) (pred : BlogPred)
    (h : hasHiragana pred.blog = false) :
    validate_blog judge ex pred = (BlogScore.bool false, []) ∧
    ∀ judge', validate_blog judge ex pred = validate_blog judge' ex pred := by
  constructor
  · simp [validate_blog, h]
  · intro judge'
    simp [validate_blog, h]

/-- Concrete instance of the C10 theorem: an English-only blog is
rejected with False, no History appended. -/
theorem validate_blog_no_hiragana_short_circuit_witness :
    validate_blog (fun _ _ => (Except.ok 5, [⟨"jp", "jr"⟩]))
      ⟨"n", "b"⟩ ⟨"r", "Hello World"⟩ = (BlogScore.bool false, []) :=
  (validate_blog_no_hiragana_short_circuit
    (fun _ _ => (Except.ok 5, [⟨"jp", "jr"⟩]))
    ⟨"n", "b"⟩ ⟨"r", "Hello World"⟩ (by decide)).1

/-! ## Claim C4 -/

/-- Claim C4: whenever the nested LM-as-judge invocation inside the
blog metric raises an exception (including failure to coerce the
judge's score field to an integer), validate_blog returns the minimum
score 0 rather than propagating the exception. -/
theorem validate_blog_judge_failure_returns_zero
    (judge : String → String → Except String Int × List HistEntry)
    (ex : BlogExample) (pred : BlogPred) (msg : String)
    (hh : hasHiragana pred.blog = true)
    (hj : (judge ex.notes pred.blog).1 = Except.error msg) :
    (validate_blog judge ex pred).1 = BlogScore.num 0 := by
  unfold validate_blog
  simp only [hh, Bool.true_eq_false, if_false]
  rcases hq : judge ex.notes pred.blog with ⟨r, hl⟩
  rw [hq] at hj
  cases r with
  | ok s => simp at hj
  | error e => rfl

/-- Concrete instance of the C4 theorem: a judge that always raises is
degraded to the score 0 on a hiragana-containing blog. -/
theorem validate_blog_judge_failure_returns_zero_witness :
    (validate_blog (fun _ _ => (Except.error "boom", [⟨"jp", "jr"⟩]))
      ⟨"n", "b"⟩ ⟨"r", "これ"⟩).1 = BlogScore.num 0 :=
  validate_blog_judge_failure_returns_zero
    (fun _ _ => (Except.error "boom", [⟨"jp", "jr"⟩]))
    ⟨"n", "b"⟩ ⟨"r", "これ"⟩ "boom" (by decide) rfl

/-! ## Claim C6 -/

/-- Claim C6 counterexample: the claim says every Metric produces no
observable side effects, but on a hiragana-containing blog the blog
metric's nested judge invocation appends a History entry — here the
concrete judge appends one entry and validate_blog passes it through,
so the appended-history component is not empty. -/
theorem metric_side_effect_counterexample :
    (validate_blog (fun _ _ => (Except.ok 5, [⟨"judge prompt", "5"⟩]))
      ⟨"n", "b"⟩ ⟨"r", "これ"⟩).2 ≠ [] := by
  decide

/-- Claim C6 (amended): metrics return equal scores on equal arguments
for a fixed judge behavior, and validate_math is side-effect-free, but
validate_blog is not: it passes through exactly the History entries
appended by its nested judge invocation whenever the prediction's blog
contains a hiragana character, and appends none otherwise. -/
theorem validate_blog_history_side_effect
    (judge : String → String → Except String Int × List HistEntry)
    (ex : BlogExample) (pred : BlogPred) :
    (validate_blog judge ex pred).2 =
      if hasHiragana pred.blog = false then []
      else (judge ex.notes pred.blog).2 := by
  cases hb : hasHiragana pred.blog with
  | false => simp [validate_blog, hb]
  | true =>
    rcases hq : judge ex.notes pred.blog with ⟨r, hl⟩
    cases r <;> simp [validate_blog, hb, hq]

/-! ## Bootstrap lemmas and Claim C1 -/

theorem bootstrapDemos_length_le (run : MathExample → MathPred)
    (metric : MathExample → MathPred → Bool) (n : Nat)
    (train : List MathExample) :
    (bootstrapDemos run metric n train).length ≤ n := by
  induction train generalizing n with
  | nil =>
    simp [bootstrapDemos]
  | cons e rest ih =>
    cases n with
    | zero => simp [bootstrapDemos]
    | succ k =>
      by_cases hm : metric e (run e)
      · simp only [bootstrapDemos, hm, if_true, List.length_cons]
        exact Nat.succ_le_succ (ih k)
      · simp only [bootstrapDemos, hm, if_false]
        exact ih (k + 1)

theorem bootstrapDemos_sound (run : MathExample → MathPred)
    (metric : MathExample → MathPred → Bool) (n : Nat)
    (train : List MathExample) :
    ∀ d ∈ bootstrapDemos run metric n train,
      ∃ e ∈ train,
        d = ⟨e.question, (run e).reasoning, (run e).answer⟩ ∧
        metric e (run e) = true := by
  induction train generalizing n with
  | nil =>
    intro d hd
    simp [bootstrapDemos] at hd
  | cons e rest ih =>
    cases n with
    | zero =>
      intro d hd
      simp [bootstrapDemos] at hd
    | succ k =>
      intro d hd
      by_cases hm : metric e (run e)
      · simp only [bootstrapDemos, hm, if_true, List.mem_cons] at hd
        rcases hd with rfl | hd
        · exact ⟨e, List.mem_cons_self e rest, rfl, hm⟩
        · rcases ih k d hd with ⟨e', he', hform, hmet⟩
          exact ⟨e', List.mem_cons_of_mem e he', hform, hmet⟩
      · simp only [bootstrapDemos, hm, if_false] at hd
        rcases ih (k + 1) d hd with ⟨e', he', hform, hmet⟩
        exact ⟨e', List.mem_cons_of_mem e he', hform, hmet⟩

/-- Claim C1 counterexample: the claim says each demonstration shows
the correct label as the output value, but bootstrapped demonstrations
show the captured prediction's answer, which the substring metric only
requires to contain the label.  With a run whose captured answers wrap
the label in extra text, the compiled demonstrations' output values
equal no training label. -/
theorem bootstrap_demo_not_label_counterexample :
    ∃ d ∈ bootstrapDemos run_bad validate_math 2 trainset,
      ∀ e ∈ trainset, d.answer ≠ e.answer := by
  decide

/-- Claim C1 (amended): for every run of bootstrapped demonstration
selection with max_demos = 2 over the training set of
src/bootstrap_few_shot.py with the substring-match metric, the
predictor of the compiled program carries at most 2 demonstrations;
each demonstration corresponds to a training example for which the
metric accepted the captured prediction, shows the captured input and
outputs verbatim, and its output value contains the correct label as a
contiguous substring (exact equality with the label holds only when
the captured answer equals the label). -/
theorem bootstrap_scenarioA_bounded_sound (run : MathExample → MathPred) :
    (bootstrapDemos run validate_math 2 trainset).length ≤ 2 ∧
    ∀ d ∈ bootstrapDemos run validate_math 2 trainset,
      ∃ e ∈ trainset,
        d.question = e.question ∧ d.reasoning = (run e).reasoning ∧
        d.answer = (run e).answer ∧ validate_math e (run e) = true ∧
        ∃ pre post, d.answer.data = pre ++ e.answer.data ++ post := by
  refine ⟨bootstrapDemos_length_le run validate_math 2 trainset, ?_⟩
  intro d hd
  rcases bootstrapDemos_sound run validate_math 2 trainset d hd with
    ⟨e, he, hform, hmet⟩
  subst hform
  rcases (validate_math_iff_substring e (run e)).mp hmet with ⟨pre, post, hsub⟩
  exact ⟨e, he, rfl, rfl, rfl, hmet, pre, post, hsub⟩

/-- Concrete instance of the C1 theorem: a run that answers each
training question with its label yields a compiled demonstration list
bounded by 2, and the demonstration for the first training example is
sound. -/
theorem bootstrap_scenarioA_bounded_sound_witness :
    (bootstrapDemos (fun e => ⟨"because", e.answer⟩)
        validate_math 2 trainset).length ≤ 2 ∧
    ∃ e ∈ trainset,
      (⟨"What is 10 + 20?", "because", "30"⟩ : Demo).question = e.question ∧
      (⟨"What is 10 + 20?", "because", "30"⟩ : Demo).reasoning =
        ((fun (e : MathExample) => (⟨"because", e.answer⟩ : MathPred)) e).reasoning ∧
      (⟨"What is 10 + 20?", "because", "30"⟩ : Demo).answer =
        ((fun (e : MathExample) => (⟨"because", e.answer⟩ : MathPred)) e).answer ∧
      validate_math e ((fun (e : MathExample) => (⟨"because", e.answer⟩ : MathPred)) e) = true ∧
      ∃ pre post,
        (⟨"What is 10 + 20?", "because", "30"⟩ : Demo).answer.data =
          pre ++ e.answer.data ++ post := by
  have h := bootstrap_scenarioA_bounded_sound (fun e => ⟨"because", e.answer⟩)
  exact ⟨h.1, h.2 ⟨"What is 10 + 20?", "because", "30"⟩ (by decide)⟩

/-! ## Trial-loop lemmas and Claims C2, C3, C5 -/

theorem bestTrial_score_ge (ts : List Trial) (t0 : Trial) :
    t0.score ≤ (bestTrial t0 ts).score := by
  induction ts generalizing t0 with
  | nil => exact le_refl _
  | cons t rest ih =>
    show t0.score ≤ (bestTrial (if t0.score < t.score then t else t0) rest).score
    by_cases hlt : t0.score < t.score
    · simp only [hlt, if_true]
      exact le_trans (le_of_lt hlt) (ih t)
    · simp only [hlt, if_false]
      exact ih t0

theorem bestTrial_of_no_improvement (ts : List Trial) (t0 : Trial)
    (h : ∀ t ∈ ts, t.score ≤ t0.score) : bestTrial t0 ts = t0 := by
  induction ts with
  | nil => rfl
  | cons t rest ih =>
    show bestTrial (if t0.score < t.score then t else t0) rest = t0
    have ht : ¬ t0.score < t.score :=
      not_lt.mpr (h t (List.mem_cons_self t rest))
    simp only [ht, if_false]
    exact ih (fun u hu => h u (List.mem_cons_of_mem t hu))

/-- Claim C2: the compiled program returned by a joint-search run has a
recorded score that is at least the zero-shot (trial 0 / unmodified)
baseline score — in particular whenever some trial improves on the
baseline — and exactly equals the baseline score when no trial improves
on it. -/
theorem mipro_best_score_vs_zero_shot (t0 : Trial) (n : Nat)
    (propose : Nat → String × List Demo)
    (evalC : String × List Demo → ℚ) :
    t0.score ≤ (miproResult t0 n propose evalC).score ∧
    ((∃ t ∈ trialLoop n propose evalC, t0.score < t.score) →
      t0.score ≤ (miproResult t0 n propose evalC).score) ∧
    ((∀ t ∈ trialLoop n propose evalC, t.score ≤ t0.score) →
      (miproResult t0 n propose evalC).score = t0.score) := by
  refine ⟨bestTrial_score_ge (trialLoop n propose evalC) t0, ?_, ?_⟩
  · intro _
    exact bestTrial_score_ge (trialLoop n propose evalC) t0
  · intro h
    rw [miproResult, bestTrial_of_no_improvement (trialLoop n propose evalC) t0 h]

/-- Concrete instance of the C2 theorem: with a baseline of score 1 and
two trials scoring 0, no trial improves, and the compiled result's
score equals the baseline score. -/
theorem mipro_best_score_vs_zero_shot_witness :
    (miproResult ⟨"base", [], 1⟩ 2 (fun _ => ("cand", []))
      (fun _ => 0)).score = (⟨"base", [], 1⟩ : Trial).score := by
  have h := mipro_best_score_vs_zero_shot ⟨"base", [], 1⟩ 2
    (fun _ => ("cand", [])) (fun _ => 0)
  exact h.2.2 (by decide)

/-- Claim C3: the trial loop performs at most num_trials evaluation
rounds and then terminates (the loop is a total function over exactly
the first num_trials indices; no path exceeds the budget). -/
theorem trial_loop_bounded (n : Nat)
    (propose : Nat → String × List Demo)
    (evalC : String × List Demo → ℚ) :
    (trialLoop n propose evalC).length ≤ n := by
  simp [trialLoop]

theorem bootstrapDemos_zero (run : MathExample → MathPred)
    (metric : MathExample → MathPred → Bool) (train : List MathExample) :
    bootstrapDemos run metric 0 train = [] := by
  cases train <;> rfl

theorem getD_nil_of_all_nil {α : Type} (l : List (List α)) (i : Nat)
    (h : ∀ x ∈ l, x = []) : l.getD i [] = [] := by
  induction l generalizing i with
  | nil => cases i <;> rfl
  | cons x xs ih =>
    cases i with
    | zero => exact h x (List.mem_cons_self x xs)
    | succ j => exact ih j (fun u hu => h u (List.mem_cons_of_mem x hu))

theorem demoPool_zero_nil (runs : List (MathExample → MathPred))
    (metric : MathExample → MathPred → Bool) (train : List MathExample) :
    ∀ ds ∈ demoPool runs metric 0 0 train, ds = [] := by
  intro ds hds
  rcases List.mem_map.mp hds with ⟨run, _, rfl⟩
  simp [demoCandidate, bootstrapDemos_zero]

/-- Claim C5: when a joint-search compile is invoked with
max_bootstrapped_demos = 0 and max_labeled_demos = 0, every trial's
demonstration set is empty for every predictor, so only instruction
strings vary across trials. -/
theorem zero_demo_bounds_give_empty_demos
    (runs : List (MathExample → MathPred)) (train : List MathExample)
    (instrs : List String) (pick : Nat → Nat × Nat) (n : Nat)
    (evalC : String × List Demo → ℚ) :
    ∀ t ∈ trialLoop n
        (proposeConfig instrs (demoPool runs validate_math 0 0 train) pick)
        evalC,
      t.demos = [] := by
  intro t ht
  rcases List.mem_map.mp ht with ⟨i, _, rfl⟩
  exact getD_nil_of_all_nil _ _ (demoPool_zero_nil runs validate_math train)

/-- Concrete instance of the C5 theorem: a one-trial run with both demo
bounds zero produces a trial whose demonstration set is empty. -/
theorem zero_demo_bounds_give_empty_demos_witness :
    (⟨"x", [], 0⟩ : Trial).demos = [] :=
  zero_demo_bounds_give_empty_demos [fun e => ⟨"", e.answer⟩] trainset
    ["x"] (fun _ => (0, 0)) 1 (fun _ => 0) ⟨"x", [], 0⟩ (by decide)

/-! ## History lemmas and Claim C7 -/

theorem last_of_append_right {α : Type} (l₁ l₂ : List α) (h : l₂ ≠ []) :
    (l₁ ++ l₂).getLast? = l₂.getLast? := by
  induction l₁ with
  | nil => rfl
  | cons a l₁ ih =>
    rw [List.cons_append]
    cases hc : l₁ ++ l₂ with
    | nil =>
      rcases List.append_eq_nil.mp hc with ⟨_, h2⟩
      exact absurd h2 h
    | cons b l =>
      rw [List.getLast?_cons_cons, ← hc, ih]

theorem last_of_map {α β : Type} (f : α → β) (l : List α) (a : α)
    (h : l.getLast? = some a) : (l.map f).getLast? = some (f a) := by
  induction l with
  | nil => simp at h
  | cons x xs ih =>
    cases xs with
    | nil =>
      simp only [List.getLast?_singleton, Option.some.injEq] at h
      simp [h]
    | cons y ys =>
      rw [List.getLast?_cons_cons] at h
      rw [List.map_cons, List.map_cons, List.getLast?_cons_cons,
        ← List.map_cons]
      exact ih h

theorem runCalls_eq (lmFun : String → String) (prompts : List String)
    (hist : List HistEntry) :
    runCalls lmFun prompts hist =
      hist ++ prompts.map (fun p => ⟨p, lmFun p⟩) := by
  induction prompts generalizing hist with
  | nil => simp [runCalls]
  | cons p ps ih =>
    show runCalls lmFun ps (hist ++ [⟨p, lmFun p⟩]) = _
    rw [ih]
    simp

/-- Claim C7: every model invocation appends exactly one History entry
containing the rendered prompt and raw response; existing entries are
never mutated or deleted (the prior history is an unchanged prefix of
the new one, which is exactly the prior history extended by one entry
per call); hence after a program invocation performing at least one
call the history is non-empty and its last entry carries the prompt of
that invocation's final model call. -/
theorem history_append_only_per_invocation (lmFun : String → String)
    (prompts : List String) (hist : List HistEntry) :
    runCalls lmFun prompts hist =
      hist ++ prompts.map (fun p => ⟨p, lmFun p⟩) ∧
    (runCalls lmFun prompts hist).length = hist.length + prompts.length ∧
    (prompts ≠ [] → runCalls lmFun prompts hist ≠ []) ∧
    ∀ p, prompts.getLast? = some p →
      (runCalls lmFun prompts hist).getLast? = some ⟨p, lmFun p⟩ := by
  refine ⟨runCalls_eq lmFun prompts hist, ?_, ?_, ?_⟩
  · rw [runCalls_eq]
    simp
  · intro hne
    rw [runCalls_eq]
    simp [hne]
  · intro p hp
    rw [runCalls_eq,
      last_of_append_right hist (prompts.map (fun q => ⟨q, lmFun q⟩))
        (by simpa using List.getLast?_isSome.mp (by simp [hp]))]
    exact last_of_map (fun q => (⟨q, lmFun q⟩ : HistEntry)) prompts p hp

/-- Concrete instance of the C7 theorem: after a two-call invocation on
an empty history, the last History entry carries the second prompt and
its response. -/
theorem history_append_only_per_invocation_witness :
    (runCalls (fun _ => "resp") ["p1", "p2"] []).getLast? =
      some ⟨"p2", "resp"⟩ := by
  have h := history_append_only_per_invocation (fun _ => "resp")
    ["p1", "p2"] []
  exact h.2.2.2 "p2" rfl

/-! ## Claim C8 -/

/-- Claim C8: when the loaded training set is empty, the blog script
prints a diagnostic and exits before any LM is configured or invoked;
no optimization step runs. -/
theorem empty_dataset_exits_before_lm (ds : List BlogExample)
    (apiKeySet : Bool) (h : ds = []) :
    blogScript ds apiKeySet = [Effect.printError, Effect.exitProc] ∧
    Effect.configureLM ∉ blogScript ds apiKeySet ∧
    Effect.lmCall ∉ blogScript ds apiKeySet ∧
    Effect.compileRun ∉ blogScript ds apiKeySet := by
  subst h
  have hb : blogScript [] apiKeySet =
      [Effect.printError, Effect.exitProc] := rfl
  refine ⟨hb, ?_, ?_, ?_⟩ <;> rw [hb] <;> decide

/-- Concrete instance of the C8 theorem: the empty dataset makes the
script exit with a diagnostic, with the API key present. -/
theorem empty_dataset_exits_before_lm_witness :
    blogScript [] true = [Effect.printError, Effect.exitProc] :=
  (empty_dataset_exits_before_lm [] true rfl).1
